import Mathlib

/-!
Verification of the fixture-generator core (package `generator`):
the type model, the value synthesizer `genValue`, the emission driver
`GenerateWithOptions`, the sum-type ("oneof") grouping heuristic, and the
syntax front-end `ParseSource`.

Go maps are embedded as association lists whose list order models the
map's iteration order; lookup is by key.  Go `*TypeRef` is embedded as
`Option TypeRef`.  `genValue`'s recursion is embedded with an explicit
fuel parameter (`none` = the Go recursion did not complete within the
given depth); fuel is decremented on every recursive call, so the
function is structurally recursive and computable by `decide`/`rfl`.
Literal braces of the generated Go text are written with the escapes
\x7b and \x7d.
-/

namespace Generator

/-- Lookup by key in an association list: the embedding of Go map indexing. -/
def mapLookup {α : Type} (l : List (String × α)) (k : String) : Option α :=
  (l.find? (fun p => p.1 == k)).map (fun p => p.2)

/-- Insertion into an association list with overwrite: the embedding of Go map assignment. -/
def mapInsert {α : Type} (l : List (String × α)) (k : String) (v : α) : List (String × α) :=
  if (mapLookup l k).isSome then
    l.map (fun p => if p.1 == k then (k, v) else p)
  else
    l ++ [(k, v)]

/-- The `TypeRef` from the source: `Kind`, `Name`, and optional `Elem` (a Go `*TypeRef`). -/
inductive TypeRef where
  | mk (kind : String) (name : String) (elem : Option TypeRef)

/-- Accessor for the `Kind` field. -/
def TypeRef.kind : TypeRef → String
  | .mk k _ _ => k

/-- Accessor for the `Name` field. -/
def TypeRef.name : TypeRef → String
  | .mk _ n _ => n

/-- Accessor for the `Elem` field. -/
def TypeRef.elem : TypeRef → Option TypeRef
  | .mk _ _ e => e

/-- The `Field` from the source: a struct field with a name and a type reference. -/
structure Field where
  name : String
  type : TypeRef

/-- The `Struct` from the source: a named record with ordered fields. -/
structure Struct where
  name : String
  fields : List Field

/-- The `Enum` from the source: a named enumeration with ordered value identifiers. -/
structure Enum where
  name : String
  values : List String

/-- The `TypeDef` from the source: a type definition over a primitive underlying type. -/
structure TypeDef where
  name : String
  underlying : TypeRef

/-- The `Model` from the source.  The four Go maps are embedded as association
lists; the list order stands for the map's iteration order. -/
structure Model where
  structs : List (String × Struct)
  enums : List (String × Enum)
  typeDefs : List (String × TypeDef)
  oneOfs : List (String × String)

/-- The `NewModel` from the source: the empty model. -/
def newModel : Model := ⟨[], [], [], []⟩

/-- The `ProtoInternalFields` from the source: protobuf-generated field names to skip. -/
def ProtoInternalFields : List String :=
  ["state", "unknownFields", "sizeCache", "EnforceVersion"]

/-- The `ExternalType` from the source (`Import`/`Value` renamed `imp`/`value`). -/
structure ExternalType where
  imp : String
  value : String

/-- The `ExternalTypes` from the source: external type names with import and default value. -/
def ExternalTypes : List (String × ExternalType) :=
  [ ("Timestamp",
      ⟨ "timestamppb \"google.golang.org/protobuf/types/known/timestamppb\"",
        "timestamppb.New(time.Date(2000, 1, 1, 0, 0, 0, 0, time.UTC))" ⟩),
    ("Time",
      ⟨ "\"time\"",
        "time.Date(2000, 1, 1, 0, 0, 0, 0, time.UTC)" ⟩) ]

/-- The `RequiredImports` from the source. -/
def RequiredImports : List String := ["\"time\""]

/-- The `GenerateOptions` from the source.  `typePre` is the option the source
calls the type-name qualifier, `funcPre` the fixture-function name infix,
`modStyle` the style flag. -/
structure GenerateOptions where
  typePre : String
  funcPre : String
  modStyle : Bool

/-- The `prefixType` closure from `GenerateWithOptions`/`genValue`. -/
def prefixType (opts : GenerateOptions) (name : String) : String :=
  if opts.typePre != "" then opts.typePre ++ "." ++ name else name

/-- The `genPrimitiveValue` from the source. -/
def genPrimitiveValue (typName fieldName structName : String) : String :=
  match typName with
  | "string" =>
      if fieldName == "ID" || fieldName == "Id" then
        "\"" ++ structName ++ "ID\""
      else
        "\"" ++ fieldName ++ "\""
  | "bool" => "true"
  | "int" | "int8" | "int16" | "int32" | "int64"
  | "uint" | "uint8" | "uint16" | "uint32" | "uint64"
  | "float32" | "float64" | "byte" | "rune" => "1"
  | _ => "nil"

/-- The test `len(name) > 2 && name[:2] == "is"` used for oneof interface names. -/
def isOneOfName (s : String) : Bool :=
  s.length > 2 && s.take 2 == "is"

/-- The `typeName` from the source (the variant taking options). -/
def typeName : TypeRef → GenerateOptions → String
  | .mk kind nm elem, opts =>
    if kind == "pointer" then
      match elem with
      | some e => "*" ++ typeName e opts
      | none => if nm != "" then nm else "interface\x7b\x7d"
    else if kind == "slice" then
      match elem with
      | some e => "[]" ++ typeName e opts
      | none => if nm != "" then nm else "interface\x7b\x7d"
    else if kind == "struct" || kind == "enum" || kind == "typedef" then
      if nm != "" then prefixType opts nm
      else
        match elem with
        | some e => typeName e opts
        | none => "interface\x7b\x7d"
    else
      if nm != "" then nm
      else
        match elem with
        | some e => typeName e opts
        | none => "interface\x7b\x7d"

/-- The `collectExternalTypes` from the source, with the used-set embedded as a
first-seen-ordered duplicate-free list. -/
def collectExternalTypes : TypeRef → List String → List String
  | .mk kind nm elem, used =>
    let used1 :=
      if kind == "external" then
        (if used.contains nm then used else used ++ [nm])
      else used
    match elem with
    | some e => collectExternalTypes e used1
    | none => used1

/-- Concatenation of a list of strings in order: the embedding of the
sequential `WriteString`/`Fprintf` calls on the output buffer. -/
def strConcat : List String → String
  | [] => ""
  | s :: l => s ++ strConcat l

/-- Option-valued map over a list, short-circuiting on `none`: the embedding
of the Go loops that build a result list and propagate fuel exhaustion. -/
def optionMapList {α β : Type} (f : α → Option β) : List α → Option (List β)
  | [] => some []
  | a :: l =>
    match f a with
    | none => none
    | some b =>
      match optionMapList f l with
      | none => none
      | some bs => some (b :: bs)

/-- The `genValue` from the source, with an explicit recursion-fuel parameter.
`genValueF 0 … = none` means the Go recursion did not finish within the
given depth; fuel is decremented on every recursive call.  All returned
strings are exactly the strings the Go code builds. -/
def genValueF : Nat → Model → TypeRef → String → String → GenerateOptions → Option String
  | 0, _, _, _, _, _ => none
  | fuel + 1, m, .mk kind tname telem, fieldName, structName, opts =>
    match kind with
    | "primitive" => some (genPrimitiveValue tname fieldName structName)
    | "struct" =>
      if isOneOfName tname then
        match mapLookup m.oneOfs tname with
        | some impl =>
          if impl != "" then
            match mapLookup m.structs impl with
            | some implStruct =>
              match optionMapList
                  (fun fld =>
                    (genValueF fuel m fld.type fld.name impl opts).map
                      (fun v => fld.name ++ ": " ++ v))
                  implStruct.fields with
              | none => none
              | some structFields =>
                if structFields.length > 0 then
                  some ("&" ++ prefixType opts impl ++ "\x7b\n\t\t\t" ++
                    String.intercalate ",\n\t\t\t" structFields ++ ",\n\t\t\x7d")
                else
                  some ("&" ++ prefixType opts impl ++ "\x7b\x7d")
            | none => some ("&" ++ prefixType opts impl ++ "\x7b\x7d")
          else some "nil"
        | none => some "nil"
      else
        if (mapLookup m.typeDefs tname).isSome then
          if opts.modStyle then some ("*Fixture" ++ opts.funcPre ++ tname ++ "()")
          else some ("Fixture" ++ opts.funcPre ++ tname ++ "()")
        else
          if opts.modStyle then some ("*Fixture" ++ opts.funcPre ++ tname ++ "()")
          else some ("Fixture" ++ opts.funcPre ++ tname ++ "()")
    | "enum" =>
      if opts.modStyle then some ("*Fixture" ++ opts.funcPre ++ tname ++ "()")
      else some ("Fixture" ++ opts.funcPre ++ tname ++ "()")
    | "typedef" =>
      if opts.modStyle then some ("*Fixture" ++ opts.funcPre ++ tname ++ "()")
      else some ("Fixture" ++ opts.funcPre ++ tname ++ "()")
    | "oneof" =>
      match mapLookup m.oneOfs tname with
      | some impl =>
        if impl != "" then
          match mapLookup m.structs impl with
          | some implStruct =>
            match optionMapList
                (fun fld =>
                  (genValueF fuel m fld.type fld.name impl opts).map
                    (fun v => fld.name ++ ": " ++ v))
                implStruct.fields with
            | none => none
            | some structFields =>
              if structFields.length > 0 then
                some ("&" ++ prefixType opts impl ++ "\x7b\n\t\t\t" ++
                  String.intercalate ",\n\t\t\t" structFields ++ ",\n\t\t\x7d")
              else
                some ("&" ++ prefixType opts impl ++ "\x7b\x7d")
          | none => some ("&" ++ prefixType opts impl ++ "\x7b\x7d")
        else some "nil"
      | none => some "nil"
    | "slice" =>
      match telem with
      | none => some "nil"
      | some e =>
        (genValueF fuel m e fieldName structName opts).map
          (fun v => "[]" ++ typeName e opts ++ "\x7b" ++ v ++ "\x7d")
    | "pointer" =>
      match telem with
      | none => some "nil"
      | some e =>
        if e.kind == "unknown" then some "nil"
        else
          match (if e.kind == "external" then mapLookup ExternalTypes e.name else none) with
          | some ext => some ext.value
          | none =>
            if opts.modStyle &&
                (e.kind == "struct" || e.kind == "enum" || e.kind == "typedef") then
              genValueF fuel m e fieldName structName opts
            else
              (genValueF fuel m e fieldName structName opts).map
                (fun v => "ptr(" ++ v ++ ")")
    | "external" =>
      match mapLookup ExternalTypes tname with
      | some ext => some ext.value
      | none => some "nil"
    | _ => some "nil"

/-- The default options of `Generate`/`GenValue` (`ModStyle: true`). -/
def defaultOpts : GenerateOptions := ⟨"", "", true⟩

/-- Insert a string into a set embedded as a duplicate-free list. -/
def setInsert (l : List String) (x : String) : List String :=
  if l.contains x then l else l ++ [x]

/-- The `collectImports` from the source.  The two Go set maps (`usedExternals`,
`importSet`) are embedded as first-seen-ordered duplicate-free lists. -/
def collectImports (m : Model) (typePre : String) : List String :=
  let usedExternals :=
    m.structs.foldl
      (fun acc p => p.2.fields.foldl (fun a f => collectExternalTypes f.type a) acc) []
  if usedExternals.isEmpty && typePre == "" then []
  else
    let importSet :=
      if usedExternals.length > 0 then
        (usedExternals.filterMap (fun n => (mapLookup ExternalTypes n).map (fun e => e.imp))).foldl
          setInsert (RequiredImports.foldl setInsert [])
      else []
    importSet

/-- The typedef-fixture text emitted by one iteration of the first loop of
`GenerateWithOptions`. -/
def typedefBlock (opts : GenerateOptions) (td : TypeDef) : String :=
  (if opts.modStyle then
    "func Fixture" ++ opts.funcPre ++ td.name ++ "(mods ...func(*" ++
      prefixType opts td.name ++ ")) *" ++ prefixType opts td.name ++ " \x7b\n" ++
    "\tresult := &" ++
      (prefixType opts td.name ++ "(" ++
        genPrimitiveValue td.underlying.name td.name td.name ++ ")") ++ "\n" ++
    "\tfor _, mod := range mods \x7b\n" ++
    "\t\tmod(result)\n" ++
    "\t\x7d\n" ++
    "\treturn result\n"
  else
    "func Fixture" ++ opts.funcPre ++ td.name ++ "() " ++ prefixType opts td.name ++ " \x7b\n" ++
    "\treturn " ++ prefixType opts td.name ++ "(" ++
      genPrimitiveValue td.underlying.name td.name td.name ++ ")\n") ++
  "\x7d\n\n"

/-- The `firstValue` scan of the enum loop of `GenerateWithOptions`: the first
declared value that is neither `"_"` nor `"EnforceVersion"` (`""` if none). -/
def firstEnumValue : List String → String
  | [] => ""
  | v :: rest => if v != "_" && v != "EnforceVersion" then v else firstEnumValue rest

/-- The enum-fixture text emitted by one iteration of the second loop of
`GenerateWithOptions` (empty when every declared value is reserved, matching
the `continue`). -/
def enumBlock (opts : GenerateOptions) (e : Enum) : String :=
  let firstValue := firstEnumValue e.values
  if firstValue == "" then ""
  else
    (if opts.modStyle then
      "func Fixture" ++ opts.funcPre ++ e.name ++ "(mods ...func(*" ++
        prefixType opts e.name ++ ")) *" ++ prefixType opts e.name ++ " \x7b\n" ++
      "\tvalue := " ++ prefixType opts firstValue ++ "\n" ++
      "\tfor _, mod := range mods \x7b\n" ++
      "\t\tmod(&value)\n" ++
      "\t\x7d\n" ++
      "\treturn &value\n"
    else
      "func Fixture" ++ opts.funcPre ++ e.name ++ "() " ++ prefixType opts e.name ++ " \x7b\n" ++
      "\treturn " ++ prefixType opts firstValue ++ "\n") ++
    "\x7d\n\n"

/-- The struct-fixture text emitted by one iteration of the third loop of
`GenerateWithOptions` (`none` when a field's `genValue` ran out of fuel). -/
def structBlockF (fuel : Nat) (m : Model) (opts : GenerateOptions) (s : Struct) :
    Option String :=
  (optionMapList
    (fun f =>
      (genValueF fuel m f.type f.name s.name opts).map
        (fun v => "\t\t" ++ f.name ++ ": " ++ v ++ ",\n"))
    s.fields).map
    (fun fieldLines =>
      if opts.modStyle then
        "func Fixture" ++ opts.funcPre ++ s.name ++ "(mods ...func(*" ++
          prefixType opts s.name ++ ")) *" ++ prefixType opts s.name ++ " \x7b\n" ++
        "\tvalue := &" ++ prefixType opts s.name ++ "\x7b\n" ++
        strConcat fieldLines ++
        "\t\x7d\n" ++
        "\tfor _, mod := range mods \x7b\n" ++
        "\t\tmod(value)\n" ++
        "\t\x7d\n" ++
        "\treturn value\n" ++
        "\x7d\n\n"
      else
        "func Fixture" ++ opts.funcPre ++ s.name ++ "() " ++ prefixType opts s.name ++ " \x7b\n" ++
        "\treturn " ++ prefixType opts s.name ++ "\x7b\n" ++
        strConcat fieldLines ++
        "\t\x7d\n" ++
        "\x7d\n\n")

/-- The text `GenerateWithOptions` writes before any fixture function:
package clause, import block, and the `ptr` helper. -/
def preludeText (m : Model) (pkgName : String) (opts : GenerateOptions) : String :=
  let imports := collectImports m opts.typePre
  "package " ++ pkgName ++ "\n\n" ++
  (if imports.length > 0 then
    "import (\n" ++ strConcat (imports.map (fun imp => "\t" ++ imp ++ "\n")) ++ ")\n\n"
  else "") ++
  "func ptr[T any](v T) *T \x7b return &v \x7d\n\n"

/-- The `GenerateWithOptions` from the source, fuel-indexed through `genValueF`. -/
def generateWithOptionsF (fuel : Nat) (m : Model) (pkgName : String)
    (opts : GenerateOptions) : Option String :=
  (optionMapList (fun p => structBlockF fuel m opts p.2) m.structs).map
    (fun structTexts =>
      preludeText m pkgName opts ++
      strConcat (m.typeDefs.map (fun p => typedefBlock opts p.2)) ++
      strConcat (m.enums.map (fun p => enumBlock opts p.2)) ++
      strConcat structTexts)

/-- The fixture functions of `GenerateWithOptions` in emission order, each
tagged with its group: 0 = typedef loop, 1 = enum loop, 2 = struct loop. -/
def fixtureBlocksF (fuel : Nat) (m : Model) (opts : GenerateOptions) :
    Option (List (Nat × String)) :=
  (optionMapList (fun p => structBlockF fuel m opts p.2) m.structs).map
    (fun structTexts =>
      m.typeDefs.map (fun p => (0, typedefBlock opts p.2)) ++
      m.enums.map (fun p => (1, enumBlock opts p.2)) ++
      structTexts.map (fun t => (2, t)))

/-- The `GenerateFormattedWithOptions` from the source.  The Go-stdlib formatter
`format.Source` is an external collaborator, passed in as a function that
either fails or returns formatted text.  The result pairs the returned text
with the returned error (always `none`). -/
def generateFormattedWithOptionsF (formatSource : String → Except String String)
    (fuel : Nat) (m : Model) (pkgName : String) (opts : GenerateOptions) :
    Option (String × Option String) :=
  (generateWithOptionsF fuel m pkgName opts).map
    (fun out =>
      match formatSource out with
      | .error _ => (out, none)
      | .ok formatted => (formatted, none))

/-- The inner separator scan of the oneof grouping (`ParseSource` second pass /
`extractOneOfs`): positions `i-1, i-2, …, 0` of the parent name are examined
right to left; at an underscore position `j` the record name `nm` matches when
`len(nm) > j`, `nm[:j] == parent[:j]` and `nm[j] == '_'`; the first (rightmost)
match stops the scan. -/
def scanOneOf (parent nm : List Char) : Nat → Bool
  | 0 => false
  | i + 1 =>
    if parent[i]? == some '_' then
      if i < nm.length && decide (nm.take i = parent.take i) && (nm[i]? == some '_') then
        true
      else scanOneOf parent nm i
    else scanOneOf parent nm i

/-- Whether record name `nm` matches oneof interface `ifaceName`: the `"is"`
marker is stripped and the parent name scanned right to left. -/
def oneofMatches (ifaceName nm : String) : Bool :=
  let parent := (ifaceName.drop 2).data
  scanOneOf parent nm.data parent.length

/-- One record declaration updating every still-unset oneof entry, as in the
`for ifaceName := range m.OneOfs` block of `ParseSource` / `extractOneOfs`. -/
def assignOneOfs (oneOfs : List (String × String)) (nm : String) :
    List (String × String) :=
  oneOfs.map (fun e => if e.2 == "" && oneofMatches e.1 nm then (e.1, nm) else e)

/-- The record/declaration traversal of the grouping heuristic: each record
name in order updates the still-unset oneof entries. -/
def processRecords (oneOfs : List (String × String)) (names : List String) :
    List (String × String) :=
  names.foldl assignOneOfs oneOfs

/-- The Go primitive type names recognized by `exprToTypeRef`. -/
def primitiveNames : List String :=
  ["string", "bool",
   "int", "int8", "int16", "int32", "int64",
   "uint", "uint8", "uint16", "uint32", "uint64",
   "float32", "float64", "byte", "rune"]

/-- The fragment of `go/ast` expressions `exprToTypeRef` distinguishes:
identifiers, `*T`, `[]T`, selector expressions, and everything else. -/
inductive GoExpr where
  | ident (name : String)
  | star (x : GoExpr)
  | array (elt : GoExpr)
  | selector (sel : String)
  | otherExpr

/-- The `exprToTypeRef` from the source. -/
def exprToTypeRef : GoExpr → TypeRef
  | .ident name =>
    if primitiveNames.contains name then .mk "primitive" name none
    else if (mapLookup ExternalTypes name).isSome then .mk "external" name none
    else .mk "struct" name none
  | .star x =>
    let e := exprToTypeRef x
    .mk "pointer" "" (some e)
  | .array elt =>
    let e := exprToTypeRef elt
    .mk "slice" e.name (some e)
  | .selector sel =>
    if (mapLookup ExternalTypes sel).isSome then .mk "external" sel none
    else .mk "struct" sel none
  | .otherExpr => .mk "unknown" "" none

/-- One field of a struct declaration as the parser sees it: the identifier
list and the type expression (`field.Names`, `field.Type`). -/
structure RawField where
  names : List String
  ftype : GoExpr

/-- The body of a type declaration, as `ParseSource` distinguishes them. -/
inductive TypeSpecKind where
  | structType (rawFields : List RawField)
  | identType (underlyingName : String)
  | interfaceType
  | otherType

/-- One `ast.TypeSpec`: a declared type name and its body. -/
structure TypeSpec where
  name : String
  body : TypeSpecKind

/-- The test `name[0] >= 'a' && name[0] <= 'z'` for unexported identifiers
(Go identifiers are nonempty; the empty string counts as exported). -/
def isUnexported (s : String) : Bool :=
  match s.data with
  | [] => false
  | c :: _ => 'a' ≤ c && c ≤ 'z'

/-- The per-field filter of `ParseSource`'s struct case: embedded/unnamed
fields, reserved protobuf-internal names, and unexported names are dropped;
a kept field takes the first declared name and the converted type. -/
def keepField (rf : RawField) : Option Field :=
  match rf.names with
  | [] => none
  | fieldName :: _ =>
    if ProtoInternalFields.contains fieldName then none
    else if isUnexported fieldName then none
    else some ⟨fieldName, exprToTypeRef rf.ftype⟩

/-- First pass of `ParseSource`: register every interface declaration whose
name begins with `"is"` (and has length > 2) as an unset oneof entry. -/
def pass1Step (m : Model) (ts : TypeSpec) : Model :=
  match ts.body with
  | .interfaceType =>
    if isOneOfName ts.name then { m with oneOfs := mapInsert m.oneOfs ts.name "" } else m
  | _ => m

/-- Second pass of `ParseSource`: skip unexported type names; for a struct
declaration, filter its fields, add it to the model only when at least one
field survives, and then run the oneof matching; for an identifier
declaration, record a typedef when the underlying type is primitive. -/
def pass2Step (m : Model) (ts : TypeSpec) : Model :=
  if isUnexported ts.name then m
  else
    match ts.body with
    | .structType rawFields =>
      let flds := rawFields.filterMap keepField
      let m1 :=
        if flds.length > 0 then
          { m with structs := mapInsert m.structs ts.name ⟨ts.name, flds⟩ }
        else m
      { m1 with oneOfs := assignOneOfs m1.oneOfs ts.name }
    | .identType underlyingName =>
      let underlying := exprToTypeRef (.ident underlyingName)
      if underlying.kind == "primitive" then
        { m with typeDefs := mapInsert m.typeDefs ts.name ⟨ts.name, underlying⟩ }
      else m
    | .interfaceType => m
    | .otherType => m

/-- The `ParseSource` from the source, over an already-lexed list of type
declarations (the `go/parser` front half is an external collaborator; a parse
failure never reaches this point). -/
def parseSourceSpecs (specs : List TypeSpec) : Model :=
  specs.foldl pass2Step (specs.foldl pass1Step newModel)

/-- The eligible (kept) fields of a declaration body: the fields `ParseSource`
would retain for a struct declaration, `[]` for any other body. -/
def eligibleFieldsOf : TypeSpecKind → List Field
  | .structType rawFields => rawFields.filterMap keepField
  | _ => []

/-- A type reference that never enters the oneof-expansion branches of
`genValue`: no sub-reference has kind `"oneof"`, and none has kind
`"struct"` with an `is`-marked name. -/
def oneofFreeRef : TypeRef → Bool
  | .mk kind nm elem =>
    !(kind == "oneof") && !(kind == "struct" && isOneOfName nm) &&
    (match elem with
     | some e => oneofFreeRef e
     | none => true)

/-- A model on which every resolved oneof member's fields are free of further
oneof references, so `genValue`'s member expansion cannot re-enter itself. -/
def oneofSafeModel (m : Model) : Bool :=
  m.oneOfs.all (fun p =>
    match mapLookup m.structs p.2 with
    | some st => st.fields.all (fun f => oneofFreeRef f.type)
    | none => true)

/-- Nesting depth of a type reference through its `elem` chain. -/
def refDepth : TypeRef → Nat
  | .mk _ _ none => 0
  | .mk _ _ (some e) => refDepth e + 1

/-- The largest `refDepth` of any struct field's type in the model. -/
def modelFieldDepth (m : Model) : Nat :=
  ((m.structs.map (fun p => p.2.fields.map (fun f => refDepth f.type))).flatten).foldl max 0

/-- The `genValue` diverges at the given input: no recursion depth suffices. -/
def genValueDiverges (m : Model) (t : TypeRef) (fieldName structName : String)
    (opts : GenerateOptions) : Prop :=
  ∀ fuel, genValueF fuel m t fieldName structName opts = none

/-- Declarations of a oneof interface `isA_B` whose canonical member `A_X`
contains a field of that same interface type. -/
def cyclicSpecs : List TypeSpec :=
  [⟨"isA_B", .interfaceType⟩,
   ⟨"A_X", .structType [⟨["F"], .ident "isA_B"⟩]⟩]

/-- The model `ParseSource` extracts from `cyclicSpecs`: the oneof entry
`isA_B ↦ A_X` while `A_X`'s only field references `isA_B` itself. -/
def cyclicModel : Model :=
  ⟨[("A_X", ⟨"A_X", [⟨"F", .mk "struct" "isA_B" none⟩]⟩)],
   [], [],
   [("isA_B", "A_X")]⟩

/-- The oneof model of the repository's tests: `isUserReference_Id` resolved
to member `UserReference_EmailId` with one primitive string field. -/
def oneofModelW : Model :=
  ⟨[("UserReference_EmailId",
      ⟨"UserReference_EmailId", [⟨"EmailId", .mk "primitive" "string" none⟩]⟩)],
   [], [],
   [("isUserReference_Id", "UserReference_EmailId")]⟩

/-- A model with two type definitions, listed in one map iteration order. -/
def mapOrder1 : Model :=
  ⟨[], [],
   [("Alpha", ⟨"Alpha", .mk "primitive" "int" none⟩),
    ("Beta", ⟨"Beta", .mk "primitive" "int" none⟩)],
   []⟩

/-- The same map as `mapOrder1`, iterated in the opposite order. -/
def mapOrder2 : Model :=
  ⟨[], [],
   [("Beta", ⟨"Beta", .mk "primitive" "int" none⟩),
    ("Alpha", ⟨"Alpha", .mk "primitive" "int" none⟩)],
   []⟩

/-! ## Lemmas and claim theorems -/

/-- A string with a nonempty left part is nonempty. -/
theorem append_ne_empty (a b : String) (h : a.length ≠ 0) : a ++ b ≠ "" := by
  intro hc
  have hl := congrArg String.length hc
  rw [String.length_append] at hl
  simp at hl
  exact h hl.1

/-- Two-entry association lists with distinct keys look up equally in either order. -/
theorem mapLookup_swap_two {α : Type} (k1 k2 : String) (v1 v2 : α) (hne : k1 ≠ k2) :
    ∀ k, mapLookup [(k1, v1), (k2, v2)] k = mapLookup [(k2, v2), (k1, v1)] k := by
  intro k
  simp only [mapLookup, List.find?]
  by_cases h1 : k1 == k
  · by_cases h2 : k2 == k
    · exact absurd (by rw [eq_of_beq h1, eq_of_beq h2]) hne
    · simp [h1, h2]
  · by_cases h2 : k2 == k
    · simp [h1, h2]
    · simp [h1, h2]

/-- Claim C2: for a primitive string field named exactly `ID` or `Id` on an
enclosing record `r`, `genPrimitiveValue` yields the literal `"rID"`; for a
string field with any other name `f` (including other casings such as `id` or
`iD`), it yields the literal `"f"`. -/
theorem claim2_identifier_field_convention (r f : String) :
    ((f = "ID" ∨ f = "Id") → genPrimitiveValue "string" f r = "\"" ++ r ++ "ID\"") ∧
    (f ≠ "ID" → f ≠ "Id" → genPrimitiveValue "string" f r = "\"" ++ f ++ "\"") := by
  constructor
  · intro h
    rcases h with h | h <;> subst h <;> simp [genPrimitiveValue]
  · intro h1 h2
    have hb : (f == "ID" || f == "Id") = false := by
      simp [h1, h2]
    simp [genPrimitiveValue, hb]

/-- Claim C2 witness: the convention at the concrete inputs of the repository's
tests, including a non-exact casing. -/
theorem claim2_witness :
    genPrimitiveValue "string" "ID" "User" = "\"UserID\"" ∧
    genPrimitiveValue "string" "id" "User" = "\"id\"" := by
  constructor
  · have h := (claim2_identifier_field_convention "User" "ID").1 (Or.inl rfl)
    rw [h]; decide
  · have h := (claim2_identifier_field_convention "User" "id").2 (by decide) (by decide)
    rw [h]; decide

/-- Claim C9: when the source formatter fails on the generated text,
`GenerateFormattedWithOptions` returns the unformatted text and a nil error;
when it succeeds, the formatted text is returned (also with a nil error). -/
theorem claim9_formatter_failure_recovered
    (formatSource : String → Except String String) (fuel : Nat) (m : Model)
    (pkgName : String) (opts : GenerateOptions) (out : String)
    (hgen : generateWithOptionsF fuel m pkgName opts = some out) :
    (∀ e, formatSource out = .error e →
      generateFormattedWithOptionsF formatSource fuel m pkgName opts = some (out, none)) ∧
    (∀ f, formatSource out = .ok f →
      generateFormattedWithOptionsF formatSource fuel m pkgName opts = some (f, none)) := by
  unfold generateFormattedWithOptionsF
  rw [hgen]
  constructor
  · intro e he
    simp [he]
  · intro f hf
    simp [hf]

/-- Claim C9 witness: on the empty model, a failing formatter yields the raw
text with no error, and a succeeding formatter yields its output. -/
theorem claim9_witness :
    generateFormattedWithOptionsF (fun _ => .error "syntax") 0 newModel "p" defaultOpts =
      some ("package p\n\nfunc ptr[T any](v T) *T \x7b return &v \x7d\n\n", none) ∧
    generateFormattedWithOptionsF (fun _ => .ok "formatted") 0 newModel "p" defaultOpts =
      some ("formatted", none) := by
  constructor
  · exact (claim9_formatter_failure_recovered (fun _ => .error "syntax") 0 newModel "p"
      defaultOpts "package p\n\nfunc ptr[T any](v T) *T \x7b return &v \x7d\n\n" rfl).1
      "syntax" rfl
  · exact (claim9_formatter_failure_recovered (fun _ => .ok "formatted") 0 newModel "p"
      defaultOpts "package p\n\nfunc ptr[T any](v T) *T \x7b return &v \x7d\n\n" rfl).2
      "formatted" rfl

/-- Claim C3: `GenerateWithOptions` iterates the model's Go maps directly, so
the emitted text depends on map iteration order.  `mapOrder1` and `mapOrder2`
are the same typedef map — identical key set and identical lookups — presented
in the two iteration orders Go's randomized map traversal can produce, and the
generated texts differ, refuting byte-identical round-trip stability. -/
theorem claim3_map_iteration_order_leaks :
    mapOrder2.typeDefs = mapOrder1.typeDefs.reverse ∧
    (∀ k, mapLookup mapOrder1.typeDefs k = mapLookup mapOrder2.typeDefs k) ∧
    (generateWithOptionsF 0 mapOrder1 "p" ⟨"", "", false⟩).isSome ∧
    (generateWithOptionsF 0 mapOrder2 "p" ⟨"", "", false⟩).isSome ∧
    generateWithOptionsF 0 mapOrder1 "p" ⟨"", "", false⟩ ≠
      generateWithOptionsF 0 mapOrder2 "p" ⟨"", "", false⟩ := by
  refine ⟨rfl, ?_, by decide, by decide, by decide⟩
  exact mapLookup_swap_two "Alpha" "Beta" _ _ (by decide)

/-- Claim C7: the `firstValue` scan of the enum loop picks the first declared
value outside the reserved list `{"_", "EnforceVersion"}`, and the emitted
enum fixture returns exactly that value; in particular with `v0` reserved and
`v1` not, the fixture returns `v1`. -/
theorem claim7_enum_default_selection (opts : GenerateOptions) (e : Enum)
    (v0 v1 : String) (rest : List String)
    (hv : e.values = v0 :: v1 :: rest)
    (h0 : v0 = "_" ∨ v0 = "EnforceVersion")
    (h1 : v1 ≠ "_") (h2 : v1 ≠ "EnforceVersion") (h3 : v1 ≠ "") :
    firstEnumValue e.values = v1 ∧
    enumBlock opts e =
      (if opts.modStyle then
        "func Fixture" ++ opts.funcPre ++ e.name ++ "(mods ...func(*" ++
          prefixType opts e.name ++ ")) *" ++ prefixType opts e.name ++ " \x7b\n" ++
        "\tvalue := " ++ prefixType opts v1 ++ "\n" ++
        "\tfor _, mod := range mods \x7b\n" ++
        "\t\tmod(&value)\n" ++
        "\t\x7d\n" ++
        "\treturn &value\n"
      else
        "func Fixture" ++ opts.funcPre ++ e.name ++ "() " ++ prefixType opts e.name ++
          " \x7b\n" ++
        "\treturn " ++ prefixType opts v1 ++ "\n") ++
      "\x7d\n\n" := by
  have hfirst : firstEnumValue e.values = v1 := by
    rw [hv]
    rcases h0 with h | h <;> subst h <;> simp [firstEnumValue, h1, h2]
  refine ⟨hfirst, ?_⟩
  unfold enumBlock
  rw [hfirst]
  simp [h3]

/-- Claim C7 witness: an enum whose first declared value is the reserved
`"_"`; the emitted classic-style fixture returns the second value. -/
theorem claim7_witness :
    firstEnumValue ["_", "STATUS_ACTIVE"] = "STATUS_ACTIVE" ∧
    enumBlock ⟨"", "", false⟩ ⟨"Status", ["_", "STATUS_ACTIVE"]⟩ =
      "func FixtureStatus() Status \x7b\n\treturn STATUS_ACTIVE\n\x7d\n\n" := by
  have h := claim7_enum_default_selection ⟨"", "", false⟩ ⟨"Status", ["_", "STATUS_ACTIVE"]⟩
    "_" "STATUS_ACTIVE" [] rfl (Or.inl rfl) (by decide) (by decide) (by decide)
  exact ⟨h.1, by rw [h.2]; decide⟩

/-- The `strConcat` distributes over list concatenation. -/
theorem strConcat_append (l1 l2 : List String) :
    strConcat (l1 ++ l2) = strConcat l1 ++ strConcat l2 := by
  induction l1 with
  | nil => simp [strConcat]
  | cons s l ih => simp [strConcat, ih, String.append_assoc]

/-- A constant-valued map is a replicate. -/
theorem map_const_replicate {α : Type} (l : List α) (c : Nat) :
    l.map (fun _ => c) = List.replicate l.length c := by
  induction l with
  | nil => rfl
  | cons a l ih => simp [List.replicate, ih]

/-- A replicated list is sorted. -/
theorem sorted_replicate (n c : Nat) :
    List.Sorted (fun a b => a ≤ b) (List.replicate n c) := by
  induction n with
  | zero => exact List.sorted_nil
  | succ k ih =>
    rw [List.replicate_succ]
    refine List.sorted_cons.mpr ⟨?_, ih⟩
    intro b hb
    rw [List.eq_of_mem_replicate hb]

/-- The `optionMapList` preserves length when it succeeds. -/
theorem optionMapList_length {α β : Type} (f : α → Option β) :
    ∀ (l : List α) (bs : List β), optionMapList f l = some bs → bs.length = l.length := by
  intro l
  induction l with
  | nil => intro bs h; simp [optionMapList] at h; simp [← h]
  | cons a t ih =>
    intro bs h
    simp only [optionMapList] at h
    cases hf : f a with
    | none => rw [hf] at h; simp at h
    | some b =>
      rw [hf] at h
      cases ht : optionMapList f t with
      | none => rw [ht] at h; simp at h
      | some bs' =>
        rw [ht] at h
        simp at h
        subst h
        simp [ih bs' ht]

/-- Claim C8: whenever `GenerateWithOptions` produces output, that output is
the prelude followed by the fixture blocks in emission order, and the group
tags of those blocks (0 = typedef, 1 = enum, 2 = struct) form the sorted
sequence typedefs-then-enums-then-structs, for every model and option
combination. -/
theorem claim8_emission_group_order (fuel : Nat) (m : Model) (pkgName : String)
    (opts : GenerateOptions) (out : String)
    (h : generateWithOptionsF fuel m pkgName opts = some out) :
    ∃ blocks, fixtureBlocksF fuel m opts = some blocks ∧
      out = preludeText m pkgName opts ++ strConcat (blocks.map (fun b => b.2)) ∧
      blocks.map (fun b => b.1) =
        List.replicate m.typeDefs.length 0 ++ List.replicate m.enums.length 1 ++
          List.replicate m.structs.length 2 ∧
      List.Sorted (fun a b => a ≤ b) (blocks.map (fun b => b.1)) := by
  unfold generateWithOptionsF at h
  rcases Option.map_eq_some'.mp h with ⟨sts, hsts, hout⟩
  have hlen : sts.length = m.structs.length := optionMapList_length _ _ _ hsts
  refine ⟨m.typeDefs.map (fun p => (0, typedefBlock opts p.2)) ++
    m.enums.map (fun p => (1, enumBlock opts p.2)) ++ sts.map (fun t => (2, t)),
    ?_, ?_, ?_, ?_⟩
  · unfold fixtureBlocksF
    rw [hsts]
    rfl
  · rw [← hout]
    simp only [List.map_append, List.map_map]
    rw [strConcat_append, strConcat_append]
    simp [Function.comp_def, String.append_assoc]
  · simp only [List.map_append, List.map_map]
    simp [Function.comp_def, map_const_replicate, hlen]
  · simp only [List.map_append, List.map_map]
    simp only [Function.comp_def]
    rw [map_const_replicate, map_const_replicate, map_const_replicate]
    unfold List.Sorted
    rw [List.pairwise_append, List.pairwise_append]
    refine ⟨⟨sorted_replicate _ _, sorted_replicate _ _, ?_⟩, sorted_replicate _ _, ?_⟩
    · intro a ha b hb
      rw [List.eq_of_mem_replicate ha, List.eq_of_mem_replicate hb]
      omega
    · intro a ha b hb
      rw [List.eq_of_mem_replicate hb]
      rcases List.mem_append.mp ha with h' | h' <;>
        rw [List.eq_of_mem_replicate h'] <;> omega

/-- Claim C8 witness: on a model with one typedef and one enum, the emitted
output decomposes into prelude plus group-sorted fixture blocks. -/
theorem claim8_witness :
    ∃ blocks,
      fixtureBlocksF 0 ⟨[], [("Status", ⟨"Status", ["STATUS_ACTIVE"]⟩)],
        [("TenantID", ⟨"TenantID", .mk "primitive" "string" none⟩)], []⟩
        ⟨"", "", false⟩ = some blocks ∧
      "package p\n\nfunc ptr[T any](v T) *T \x7b return &v \x7d\n\nfunc FixtureTenantID() TenantID \x7b\n\treturn TenantID(\"TenantID\")\n\x7d\n\nfunc FixtureStatus() Status \x7b\n\treturn STATUS_ACTIVE\n\x7d\n\n" =
        preludeText ⟨[], [("Status", ⟨"Status", ["STATUS_ACTIVE"]⟩)],
          [("TenantID", ⟨"TenantID", .mk "primitive" "string" none⟩)], []⟩ "p"
          ⟨"", "", false⟩ ++ strConcat (blocks.map (fun b => b.2)) ∧
      blocks.map (fun b => b.1) =
        List.replicate 1 0 ++ List.replicate 1 1 ++ List.replicate 0 2 ∧
      List.Sorted (fun a b => a ≤ b) (blocks.map (fun b => b.1)) :=
  claim8_emission_group_order 0
    ⟨[], [("Status", ⟨"Status", ["STATUS_ACTIVE"]⟩)],
      [("TenantID", ⟨"TenantID", .mk "primitive" "string" none⟩)], []⟩
    "p" ⟨"", "", false⟩ _ rfl

/-- The separator scan never matches the empty record name. -/
theorem scanOneOf_empty_nm (p : List Char) : ∀ n, scanOneOf p [] n = false := by
  intro n
  induction n with
  | zero => rfl
  | succ k ih =>
    unfold scanOneOf
    by_cases h : p[k]? == some '_' <;> simp [h, ih]

/-- The `oneofMatches` never matches the empty record name. -/
theorem oneofMatches_empty_nm (ifaceName : String) : oneofMatches ifaceName "" = false := by
  unfold oneofMatches
  exact scanOneOf_empty_nm _ _

/-- A matching record name is nonempty. -/
theorem oneofMatches_ne_empty {ifaceName nm : String}
    (h : oneofMatches ifaceName nm = true) : nm ≠ "" := by
  intro hc
  subst hc
  rw [oneofMatches_empty_nm] at h
  cases h

/-- The right-to-left separator scan succeeds exactly when some underscore
position of the parent admits the prefix-plus-underscore match. -/
theorem scanOneOf_iff (p nm : List Char) : ∀ n,
    scanOneOf p nm n = true ↔
      ∃ i, i < n ∧ p[i]? = some '_' ∧ i < nm.length ∧
        nm.take i = p.take i ∧ nm[i]? = some '_' := by
  intro n
  induction n with
  | zero => simp [scanOneOf]
  | succ k ih =>
    unfold scanOneOf
    by_cases h1 : p[k]? = some '_'
    · by_cases h2 : k < nm.length ∧ nm.take k = p.take k ∧ nm[k]? = some '_'
      · have hcond : (decide (k < nm.length) && decide (nm.take k = p.take k) &&
            (nm[k]? == some '_')) = true := by
          rw [h2.2.2]
          simp [h2.1, h2.2.1]
        simp only [h1, beq_self_eq_true, if_true, hcond]
        constructor
        · intro _
          exact ⟨k, Nat.lt_succ_self k, h1, h2.1, h2.2.1, h2.2.2⟩
        · intro _
          trivial
      · have hcond : (decide (k < nm.length) && decide (nm.take k = p.take k) &&
            (nm[k]? == some '_')) = false := by
          rcases Decidable.not_and_iff_or_not.mp h2 with h | h
          · simp [h]
          · rcases Decidable.not_and_iff_or_not.mp h with h | h <;> simp [h]
        simp only [h1, beq_self_eq_true, if_true, hcond, Bool.false_eq_true, if_false]
        rw [ih]
        constructor
        · rintro ⟨i, hi, hrest⟩
          exact ⟨i, Nat.lt_succ_of_lt hi, hrest⟩
        · rintro ⟨i, hi, hrest⟩
          refine ⟨i, ?_, hrest⟩
          rcases Nat.lt_succ_iff_lt_or_eq.mp hi with h | h
          · exact h
          · subst h
            exact absurd ⟨hrest.2.1, hrest.2.2.1, hrest.2.2.2⟩ h2
    · have h1b : (p[k]? == some '_') = false := by
        simp only [beq_eq_false_iff_ne, ne_eq]
        exact h1
      simp only [h1b, Bool.false_eq_true, if_false]
      rw [ih]
      constructor
      · rintro ⟨i, hi, hrest⟩
        exact ⟨i, Nat.lt_succ_of_lt hi, hrest⟩
      · rintro ⟨i, hi, hrest⟩
        refine ⟨i, ?_, hrest⟩
        rcases Nat.lt_succ_iff_lt_or_eq.mp hi with h | h
        · exact h
        · subst h
          exact absurd hrest.1 h1

/-- Claim C4: (1) processing record declarations in traversal order against
the oneof table assigns to each entry the first record that matches (entries
already holding a member are never changed by later records); (2) a record
name matches a sum-type entry exactly when, after stripping the `is` marker,
some underscore position `i` of the parent name has the record name beginning
with the parent's first `i` characters followed immediately by an underscore
(the scan tests these positions right to left and stops at the first hit,
which assigns the same record as any other hit would). -/
theorem claim4_oneof_grouping :
    (∀ (oneOfs : List (String × String)) (names : List String),
      processRecords oneOfs names =
        oneOfs.map (fun e =>
          (e.1, if e.2 = "" then ((names.find? (fun r => oneofMatches e.1 r)).getD "")
            else e.2))) ∧
    (∀ (ifaceName nm : String),
      oneofMatches ifaceName nm = true ↔
        ∃ i, (ifaceName.drop 2).data[i]? = some '_' ∧
          nm.data.take i = (ifaceName.drop 2).data.take i ∧
          nm.data[i]? = some '_') := by
  constructor
  · intro oneOfs names
    induction names generalizing oneOfs with
    | nil =>
      have hid : ∀ e : String × String,
          (e.1, if e.2 = "" then ((List.find? (fun r => oneofMatches e.1 r) []).getD "")
            else e.2) = e := by
        intro e
        by_cases h : e.2 = ""
        · simp only [h, if_true, List.find?_nil, Option.getD_none]
          rw [← h]
        · simp only [h, if_false]
      calc processRecords oneOfs [] = oneOfs := rfl
        _ = oneOfs.map id := (List.map_id oneOfs).symm
        _ = _ := List.map_congr_left (fun e _ => (hid e).symm)
    | cons r rest ih =>
      have hstep : processRecords oneOfs (r :: rest) =
          processRecords (assignOneOfs oneOfs r) rest := rfl
      rw [hstep, ih, assignOneOfs, List.map_map]
      apply List.map_congr_left
      intro e _
      simp only [Function.comp_apply]
      by_cases he : e.2 = ""
      · by_cases hm : oneofMatches e.1 r = true
        · have hcond : (e.2 == "" && oneofMatches e.1 r) = true := by
            simp [he, hm]
          have hr : r ≠ "" := oneofMatches_ne_empty hm
          simp [hcond, he, hm, hr, List.find?]
        · have hcond : (e.2 == "" && oneofMatches e.1 r) = false := by
            simp [hm]
          have hm2 : oneofMatches e.1 r = false := by
            simp at hm
            exact hm
          simp [hcond, he, List.find?, hm2]
      · have hcond : (e.2 == "" && oneofMatches e.1 r) = false := by
          simp [he]
        simp [hcond, he]
  · intro ifaceName nm
    unfold oneofMatches
    rw [scanOneOf_iff]
    constructor
    · rintro ⟨i, _, hp, _, htake, hget⟩
      exact ⟨i, hp, htake, hget⟩
    · rintro ⟨i, hp, htake, hget⟩
      refine ⟨i, ?_, hp, ?_, htake, hget⟩
      · exact (List.getElem?_eq_some_iff.mp hp).choose
      · exact (List.getElem?_eq_some_iff.mp hget).choose

/-- Claim C4 witness: the repository's example — `isUserReference_Id` is
claimed by the first matching record and not changed by the later one. -/
theorem claim4_witness :
    processRecords [("isUserReference_Id", "")]
      ["Nope", "UserReference_EmailId", "UserReference_PhoneId"] =
      [("isUserReference_Id", "UserReference_EmailId")] ∧
    oneofMatches "isUserReference_Id" "UserReference_EmailId" = true := by
  constructor
  · rw [claim4_oneof_grouping.1]
    decide
  · rw [claim4_oneof_grouping.2]
    refine ⟨13, by decide, by decide, by decide⟩

/-- Claim C5: synthesis of a sum-type (`"oneof"`) reference.  The entry may be
unresolved (absent or empty) — nil fallback; resolved with the member struct
absent or field-less — empty literal; resolved with a field-bearing member —
a populated literal of the member with every field recursively synthesized,
which is never the empty literal. -/
theorem claim5_oneof_value_synthesis (fuel : Nat) (m : Model) (tname : String)
    (telem : Option TypeRef) (fieldName structName : String) (opts : GenerateOptions) :
    (mapLookup m.oneOfs tname = none →
      genValueF (fuel + 1) m (.mk "oneof" tname telem) fieldName structName opts =
        some "nil") ∧
    (mapLookup m.oneOfs tname = some "" →
      genValueF (fuel + 1) m (.mk "oneof" tname telem) fieldName structName opts =
        some "nil") ∧
    (∀ impl, mapLookup m.oneOfs tname = some impl → impl ≠ "" →
      mapLookup m.structs impl = none →
      genValueF (fuel + 1) m (.mk "oneof" tname telem) fieldName structName opts =
        some ("&" ++ prefixType opts impl ++ "\x7b\x7d")) ∧
    (∀ impl implStruct, mapLookup m.oneOfs tname = some impl → impl ≠ "" →
      mapLookup m.structs impl = some implStruct → implStruct.fields = [] →
      genValueF (fuel + 1) m (.mk "oneof" tname telem) fieldName structName opts =
        some ("&" ++ prefixType opts impl ++ "\x7b\x7d")) ∧
    (∀ impl implStruct structFields,
      mapLookup m.oneOfs tname = some impl → impl ≠ "" →
      mapLookup m.structs impl = some implStruct → implStruct.fields ≠ [] →
      optionMapList
        (fun fld =>
          (genValueF fuel m fld.type fld.name impl opts).map
            (fun v => fld.name ++ ": " ++ v)) implStruct.fields = some structFields →
      genValueF (fuel + 1) m (.mk "oneof" tname telem) fieldName structName opts =
        some ("&" ++ prefixType opts impl ++ "\x7b\n\t\t\t" ++
          String.intercalate ",\n\t\t\t" structFields ++ ",\n\t\t\x7d") ∧
      ("&" ++ prefixType opts impl ++ "\x7b\n\t\t\t" ++
          String.intercalate ",\n\t\t\t" structFields ++ ",\n\t\t\x7d") ≠
        ("&" ++ prefixType opts impl ++ "\x7b\x7d")) := by
  have hunfold : genValueF (fuel + 1) m (.mk "oneof" tname telem) fieldName structName opts =
      (match mapLookup m.oneOfs tname with
       | some impl =>
         if impl != "" then
           match mapLookup m.structs impl with
           | some implStruct =>
             match optionMapList
                 (fun fld =>
                   (genValueF fuel m fld.type fld.name impl opts).map
                     (fun v => fld.name ++ ": " ++ v))
                 implStruct.fields with
             | none => none
             | some structFields =>
               if structFields.length > 0 then
                 some ("&" ++ prefixType opts impl ++ "\x7b\n\t\t\t" ++
                   String.intercalate ",\n\t\t\t" structFields ++ ",\n\t\t\x7d")
               else
                 some ("&" ++ prefixType opts impl ++ "\x7b\x7d")
           | none => some ("&" ++ prefixType opts impl ++ "\x7b\x7d")
         else some "nil"
       | none => some "nil") := rfl
  refine ⟨?_, ?_, ?_, ?_, ?_⟩
  · intro h
    rw [hunfold, h]
  · intro h
    rw [hunfold, h]
    simp
  · intro impl h hne hs
    have hb : (impl != "") = true := by simp [hne]
    rw [hunfold, h]
    simp only [hb, if_true, hs]
  · intro impl implStruct h hne hs hf
    have hb : (impl != "") = true := by simp [hne]
    have hmap : optionMapList
        (fun fld =>
          (genValueF fuel m fld.type fld.name impl opts).map
            (fun v => fld.name ++ ": " ++ v)) implStruct.fields = some [] := by
      rw [hf]
      rfl
    rw [hunfold, h]
    simp only [hb, if_true, hs, hmap]
    rfl
  · intro impl implStruct structFields h hne hs hf hmap
    have hb : (impl != "") = true := by simp [hne]
    have hlen : structFields.length > 0 := by
      rw [optionMapList_length _ _ _ hmap]
      exact List.length_pos.mpr hf
    constructor
    · rw [hunfold, h]
      simp only [hb, if_true, hs, hmap]
      rw [if_pos hlen]
    · intro hc
      have hl := congrArg String.length hc
      simp only [String.length_append] at hl
      have c1 : ("\x7b\n\t\t\t" : String).length = 5 := rfl
      have c2 : (",\n\t\t\x7d" : String).length = 5 := rfl
      have c3 : ("\x7b\x7d" : String).length = 2 := rfl
      rw [c1, c2, c3] at hl
      omega

/-- Claim C5 witness: the repository's test — a resolved oneof with a
one-field member yields the populated literal, and an unresolved oneof yields
`nil`. -/
theorem claim5_witness :
    genValueF 2 oneofModelW (.mk "oneof" "isUserReference_Id" none) "Id" "UserReference"
      defaultOpts =
      some "&UserReference_EmailId\x7b\n\t\t\tEmailId: \"EmailId\",\n\t\t\x7d" ∧
    genValueF 1 oneofModelW (.mk "oneof" "isMissing_X" none) "Id" "UserReference"
      defaultOpts = some "nil" := by
  constructor
  · have h := (claim5_oneof_value_synthesis 1 oneofModelW "isUserReference_Id" none
      "Id" "UserReference" defaultOpts).2.2.2.2 "UserReference_EmailId"
      ⟨"UserReference_EmailId", [⟨"EmailId", .mk "primitive" "string" none⟩]⟩
      ["EmailId: \"EmailId\""] rfl (by decide) rfl (by simp) (by decide)
    rw [h.1]
    decide
  · exact (claim5_oneof_value_synthesis 0 oneofModelW "isMissing_X" none
      "Id" "UserReference" defaultOpts).1 rfl

/-- Claim C6: synthesis of a pointer reference.  A missing or unknown element
gives the nil fallback; a registered external element gives its literal
verbatim with no wrapping; in mod style a struct/enum/typedef element value is
used directly with no `ptr(…)` wrapping; otherwise the recursively
synthesized element value is wrapped in `ptr(…)`. -/
theorem claim6_pointer_value_synthesis (fuel : Nat) (m : Model) (pname : String)
    (fieldName structName : String) (opts : GenerateOptions) :
    (genValueF (fuel + 1) m (.mk "pointer" pname none) fieldName structName opts =
      some "nil") ∧
    (∀ en ee,
      genValueF (fuel + 1) m (.mk "pointer" pname (some (.mk "unknown" en ee)))
        fieldName structName opts = some "nil") ∧
    (∀ en ee ext, mapLookup ExternalTypes en = some ext →
      genValueF (fuel + 1) m (.mk "pointer" pname (some (.mk "external" en ee)))
        fieldName structName opts = some ext.value) ∧
    (∀ ek en ee, opts.modStyle = true → (ek = "struct" ∨ ek = "enum" ∨ ek = "typedef") →
      genValueF (fuel + 1) m (.mk "pointer" pname (some (.mk ek en ee)))
        fieldName structName opts =
        genValueF fuel m (.mk ek en ee) fieldName structName opts) ∧
    (∀ ek en ee, ek ≠ "unknown" →
      (ek = "external" → mapLookup ExternalTypes en = none) →
      ¬(opts.modStyle = true ∧ (ek = "struct" ∨ ek = "enum" ∨ ek = "typedef")) →
      genValueF (fuel + 1) m (.mk "pointer" pname (some (.mk ek en ee)))
        fieldName structName opts =
        (genValueF fuel m (.mk ek en ee) fieldName structName opts).map
          (fun v => "ptr(" ++ v ++ ")")) := by
  have hunfold : ∀ e : TypeRef,
      genValueF (fuel + 1) m (.mk "pointer" pname (some e)) fieldName structName opts =
      (if e.kind == "unknown" then some "nil"
       else
         match (if e.kind == "external" then mapLookup ExternalTypes e.name else none) with
         | some ext => some ext.value
         | none =>
           if opts.modStyle &&
               (e.kind == "struct" || e.kind == "enum" || e.kind == "typedef") then
             genValueF fuel m e fieldName structName opts
           else
             (genValueF fuel m e fieldName structName opts).map
               (fun v => "ptr(" ++ v ++ ")")) := fun e => rfl
  refine ⟨rfl, ?_, ?_, ?_, ?_⟩
  · intro en ee
    rw [hunfold]
    rfl
  · intro en ee ext hext
    rw [hunfold]
    simp only [TypeRef.kind, TypeRef.name]
    rw [if_neg (by decide)]
    · simp only [beq_self_eq_true, if_true, hext]
  · intro ek en ee hmod hk
    rw [hunfold]
    have hk1 : (ek == "unknown") = false := by
      rcases hk with h | h | h <;> subst h <;> decide
    have hk2 : (ek == "external") = false := by
      rcases hk with h | h | h <;> subst h <;> decide
    have hk3 : (opts.modStyle &&
        (ek == "struct" || ek == "enum" || ek == "typedef")) = true := by
      rcases hk with h | h | h <;> subst h <;> simp [hmod]
    simp only [TypeRef.kind, TypeRef.name, hk1, Bool.false_eq_true, if_false, hk2, hk3,
      if_true]
  · intro ek en ee hu hext hnot
    rw [hunfold]
    have hk1 : (ek == "unknown") = false := by simp [hu]
    have hlook : (if (TypeRef.mk ek en ee).kind == "external" then
        mapLookup ExternalTypes (TypeRef.mk ek en ee).name else none) = none := by
      simp only [TypeRef.kind, TypeRef.name]
      by_cases h : ek = "external"
      · subst h
        simp [hext rfl]
      · simp [h]
    have hk3 : (opts.modStyle &&
        (ek == "struct" || ek == "enum" || ek == "typedef")) = false := by
      by_cases hm : opts.modStyle
      · have : ¬(ek = "struct" ∨ ek = "enum" ∨ ek = "typedef") := fun hk => hnot ⟨hm, hk⟩
        push_neg at this
        simp [this.1, this.2.1, this.2.2]
      · simp [hm]
    rw [hlook]
    simp only [TypeRef.kind, hk1, Bool.false_eq_true, if_false, hk3]

/-- Claim C6 witness: pointer to a registered external gives the literal
verbatim; pointer to unknown gives nil; mod style does not wrap a struct
element while classic style wraps it in `ptr(…)`. -/
theorem claim6_witness :
    genValueF 2 newModel (.mk "pointer" "" (some (.mk "external" "Timestamp" none)))
      "CreatedAt" "User" defaultOpts =
      some "timestamppb.New(time.Date(2000, 1, 1, 0, 0, 0, 0, time.UTC))" ∧
    genValueF 1 newModel (.mk "pointer" "" (some (.mk "unknown" "" none)))
      "X" "User" defaultOpts = some "nil" ∧
    genValueF 2 newModel (.mk "pointer" "" (some (.mk "struct" "Address" none)))
      "Address" "User" defaultOpts = some "*FixtureAddress()" ∧
    genValueF 2 newModel (.mk "pointer" "" (some (.mk "struct" "Address" none)))
      "Address" "User" ⟨"", "", false⟩ = some "ptr(FixtureAddress())" := by
  refine ⟨?_, ?_, ?_, ?_⟩
  · have h := (claim6_pointer_value_synthesis 1 newModel "" "CreatedAt" "User"
      defaultOpts).2.2.1 "Timestamp" none ⟨"timestamppb \"google.golang.org/protobuf/types/known/timestamppb\"", "timestamppb.New(time.Date(2000, 1, 1, 0, 0, 0, 0, time.UTC))"⟩ rfl
    rw [h]
  · exact (claim6_pointer_value_synthesis 0 newModel "" "X" "User" defaultOpts).2.1 "" none
  · have h := (claim6_pointer_value_synthesis 1 newModel "" "Address" "User"
      defaultOpts).2.2.2.1 "struct" "Address" none rfl (Or.inl rfl)
    rw [h]
    decide
  · have h := (claim6_pointer_value_synthesis 1 newModel "" "Address" "User"
      ⟨"", "", false⟩).2.2.2.2 "struct" "Address" none (by decide)
      (fun hc => absurd hc (by decide)) (by simp)
    rw [h]
    decide


theorem append_ne_empty2 (a b : String) (ha : a ≠ "") : a ++ b ≠ "" := by
  intro hc
  apply ha
  have hd : a.data ++ b.data = [] := by
    have := congrArg String.data hc
    rwa [String.data_append] at this
  exact String.ext (List.append_eq_nil.mp hd).1

theorem genPrimitiveValue_ne_empty (a b c : String) : genPrimitiveValue a b c ≠ "" := by
  unfold genPrimitiveValue
  split
  · split
    · exact append_ne_empty2 ("\"" ++ c) "ID\"" (append_ne_empty2 "\"" c (by decide))
    · exact append_ne_empty2 ("\"" ++ b) "\"" (append_ne_empty2 "\"" b (by decide))
  all_goals decide

/-- One-step unfolding of `genValueF` at positive fuel. -/
theorem genValueF_succ (k : Nat) (m : Model) (kind nm : String) (elem : Option TypeRef)
    (fieldName structName : String) (opts : GenerateOptions) :
    genValueF (k + 1) m (.mk kind nm elem) fieldName structName opts =
    (match kind with
    | "primitive" => some (genPrimitiveValue nm fieldName structName)
    | "struct" =>
      if isOneOfName nm then
        match mapLookup m.oneOfs nm with
        | some impl =>
          if impl != "" then
            match mapLookup m.structs impl with
            | some implStruct =>
              match optionMapList
                  (fun fld =>
                    (genValueF k m fld.type fld.name impl opts).map
                      (fun v => fld.name ++ ": " ++ v))
                  implStruct.fields with
              | none => none
              | some structFields =>
                if structFields.length > 0 then
                  some ("&" ++ prefixType opts impl ++ "\x7b\n\t\t\t" ++
                    String.intercalate ",\n\t\t\t" structFields ++ ",\n\t\t\x7d")
                else
                  some ("&" ++ prefixType opts impl ++ "\x7b\x7d")
            | none => some ("&" ++ prefixType opts impl ++ "\x7b\x7d")
          else some "nil"
        | none => some "nil"
      else
        if (mapLookup m.typeDefs nm).isSome then
          if opts.modStyle then some ("*Fixture" ++ opts.funcPre ++ nm ++ "()")
          else some ("Fixture" ++ opts.funcPre ++ nm ++ "()")
        else
          if opts.modStyle then some ("*Fixture" ++ opts.funcPre ++ nm ++ "()")
          else some ("Fixture" ++ opts.funcPre ++ nm ++ "()")
    | "enum" =>
      if opts.modStyle then some ("*Fixture" ++ opts.funcPre ++ nm ++ "()")
      else some ("Fixture" ++ opts.funcPre ++ nm ++ "()")
    | "typedef" =>
      if opts.modStyle then some ("*Fixture" ++ opts.funcPre ++ nm ++ "()")
      else some ("Fixture" ++ opts.funcPre ++ nm ++ "()")
    | "oneof" =>
      match mapLookup m.oneOfs nm with
      | some impl =>
        if impl != "" then
          match mapLookup m.structs impl with
          | some implStruct =>
            match optionMapList
                (fun fld =>
                  (genValueF k m fld.type fld.name impl opts).map
                    (fun v => fld.name ++ ": " ++ v))
                implStruct.fields with
            | none => none
            | some structFields =>
              if structFields.length > 0 then
                some ("&" ++ prefixType opts impl ++ "\x7b\n\t\t\t" ++
                  String.intercalate ",\n\t\t\t" structFields ++ ",\n\t\t\x7d")
              else
                some ("&" ++ prefixType opts impl ++ "\x7b\x7d")
          | none => some ("&" ++ prefixType opts impl ++ "\x7b\x7d")
        else some "nil"
      | none => some "nil"
    | "slice" =>
      match elem with
      | none => some "nil"
      | some e =>
        (genValueF k m e fieldName structName opts).map
          (fun v => "[]" ++ typeName e opts ++ "\x7b" ++ v ++ "\x7d")
    | "pointer" =>
      match elem with
      | none => some "nil"
      | some e =>
        if e.kind == "unknown" then some "nil"
        else
          match (if e.kind == "external" then mapLookup ExternalTypes e.name else none) with
          | some ext => some ext.value
          | none =>
            if opts.modStyle &&
                (e.kind == "struct" || e.kind == "enum" || e.kind == "typedef") then
              genValueF k m e fieldName structName opts
            else
              (genValueF k m e fieldName structName opts).map
                (fun v => "ptr(" ++ v ++ ")")
    | "external" =>
      match mapLookup ExternalTypes nm with
      | some ext => some ext.value
      | none => some "nil"
    | _ => some "nil") := rfl

theorem fixture_ne (a b c d : String) (ha : a ≠ "") : a ++ b ++ c ++ d ≠ "" :=
  append_ne_empty2 _ _ (append_ne_empty2 _ _ (append_ne_empty2 _ _ ha))

theorem populated_ne (a b c d e : String) (ha : a ≠ "") : a ++ b ++ c ++ d ++ e ≠ "" :=
  append_ne_empty2 _ _ (fixture_ne _ _ _ _ ha)

theorem extValue_ne_empty : ∀ (nm : String) (ext : ExternalType),
    mapLookup ExternalTypes nm = some ext → ext.value ≠ "" := by
  intro nm ext h
  by_cases h1 : nm = "Timestamp"
  · subst h1
    simp [mapLookup, ExternalTypes] at h
    rw [← h]
    decide
  · by_cases h2 : nm = "Time"
    · subst h2
      simp [mapLookup, ExternalTypes] at h
      rw [← h]
      decide
    · have hnone : mapLookup ExternalTypes nm = none := by
        have e1 : (("Timestamp" : String) == nm) = false := by
          simp only [beq_eq_false_iff_ne, ne_eq]
          exact fun hc => h1 hc.symm
        have e2 : (("Time" : String) == nm) = false := by
          simp only [beq_eq_false_iff_ne, ne_eq]
          exact fun hc => h2 hc.symm
        simp [mapLookup, ExternalTypes, List.find?, e1, e2]
      rw [hnone] at h
      cases h

theorem genValueF_ne_empty : ∀ (fuel : Nat) (m : Model) (t : TypeRef) (fn sn : String)
    (o : GenerateOptions) (v : String), genValueF fuel m t fn sn o = some v → v ≠ "" := by
  intro fuel
  induction fuel with
  | zero =>
    intro m t fn sn o v h
    simp [genValueF] at h
  | succ k ih =>
    intro m t fn sn o v h
    obtain ⟨kind, nm, elem⟩ := t
    rw [genValueF_succ] at h
    split at h
    case _ => simp at h; subst h; exact genPrimitiveValue_ne_empty _ _ _
    case _ => -- struct
      split at h
      · split at h
        · rename_i impl
          split at h
          · split at h
            · split at h
              · exact absurd h (by simp)
              · split at h <;> (simp at h; subst h)
                · exact populated_ne _ _ _ _ _ (append_ne_empty2 "&" _ (by decide))
                · exact append_ne_empty2 _ _ (append_ne_empty2 "&" _ (by decide))
            · simp at h; subst h
              exact append_ne_empty2 _ _ (append_ne_empty2 "&" _ (by decide))
          · simp at h; subst h; decide
        · simp at h; subst h; decide
      · split at h <;> split at h <;> (simp at h; subst h)
        · exact fixture_ne "*Fixture" _ _ _ (by decide)
        · exact fixture_ne "Fixture" _ _ _ (by decide)
        · exact fixture_ne "*Fixture" _ _ _ (by decide)
        · exact fixture_ne "Fixture" _ _ _ (by decide)
    case _ => -- enum
      split at h <;> (simp at h; subst h)
      · exact append_ne_empty2 ("*Fixture" ++ o.funcPre ++ nm) "()"
          (append_ne_empty2 ("*Fixture" ++ o.funcPre) nm
            (append_ne_empty2 "*Fixture" o.funcPre (by decide)))
      · exact append_ne_empty2 ("Fixture" ++ o.funcPre ++ nm) "()"
          (append_ne_empty2 ("Fixture" ++ o.funcPre) nm
            (append_ne_empty2 "Fixture" o.funcPre (by decide)))
    case _ => -- typedef
      split at h <;> (simp at h; subst h)
      · exact fixture_ne "*Fixture" _ _ _ (by decide)
      · exact fixture_ne "Fixture" _ _ _ (by decide)
    case _ => -- oneof
      split at h
      · rename_i impl
        split at h
        · split at h
          · split at h
            · exact absurd h (by simp)
            · split at h <;> (simp at h; subst h)
              · exact populated_ne _ _ _ _ _ (append_ne_empty2 "&" _ (by decide))
              · exact append_ne_empty2 _ _ (append_ne_empty2 "&" _ (by decide))
          · simp at h; subst h
            exact append_ne_empty2 _ _ (append_ne_empty2 "&" _ (by decide))
        · simp at h; subst h; decide
      · simp at h; subst h; decide
    case _ => -- slice
      split at h
      · simp at h; subst h; decide
      · rcases Option.map_eq_some'.mp h with ⟨w, _, hv⟩
        subst hv
        exact fixture_ne ("[]" ++ _) "\x7b" w "\x7d" (append_ne_empty2 "[]" _ (by decide))
    case _ => -- pointer
      split at h
      · simp at h; subst h; decide
      · split at h
        · simp at h; subst h; decide
        · split at h
          · rename_i ext heq
            simp at h
            subst h
            split at heq
            · exact extValue_ne_empty _ _ heq
            · cases heq
          · split at h
            · exact ih _ _ _ _ _ _ h
            · rcases Option.map_eq_some'.mp h with ⟨w, _, hv⟩
              subst hv
              exact append_ne_empty2 _ _ (append_ne_empty2 "ptr(" w (by decide))
    case _ => -- external
      split at h
      · rename_i ext heq
        simp at h
        subst h
        exact extValue_ne_empty _ _ heq
      · simp at h; subst h; decide
    case _ => -- default
      simp at h; subst h; decide


theorem optionMapList_isSome {α β : Type} (f : α → Option β) :
    ∀ (l : List α), (∀ x ∈ l, (f x).isSome) → (optionMapList f l).isSome := by
  intro l h
  induction l with
  | nil => simp [optionMapList]
  | cons a t ih =>
    simp only [optionMapList]
    cases hfa : f a with
    | none =>
      have := h a (List.mem_cons_self a t)
      rw [hfa] at this
      cases this
    | some b =>
      have hrec := ih (fun x hx => h x (List.mem_cons_of_mem a hx))
      cases hrest : optionMapList f t with
      | none => rw [hrest] at hrec; cases hrec
      | some bs => simp

theorem le_foldl_max : ∀ (l : List Nat) (a : Nat),
    a ≤ l.foldl max a ∧ ∀ x ∈ l, x ≤ l.foldl max a := by
  intro l
  induction l with
  | nil => intro a; simp
  | cons y t ih =>
    intro a
    constructor
    · exact le_trans (le_max_left a y) (ih (max a y)).1
    · intro x hx
      rcases List.mem_cons.mp hx with h | h
      · subst h
        exact le_trans (le_max_right a x) (ih (max a x)).1
      · exact (ih (max a y)).2 x h

theorem field_depth_le (m : Model) (impl : String) (st : Struct) (f : Field)
    (hlook : mapLookup m.structs impl = some st) (hmem : f ∈ st.fields) :
    refDepth f.type ≤ modelFieldDepth m := by
  unfold mapLookup at hlook
  rcases Option.map_eq_some'.mp hlook with ⟨p, hfind, hp⟩
  have hpmem : p ∈ m.structs := List.mem_of_find?_eq_some hfind
  have h1 : refDepth f.type ∈
      (m.structs.map (fun q => q.2.fields.map (fun g => refDepth g.type))).flatten := by
    rw [List.mem_flatten]
    refine ⟨st.fields.map (fun g => refDepth g.type), ?_, ?_⟩
    · rw [← hp]
      exact List.mem_map_of_mem _ hpmem
    · exact List.mem_map_of_mem _ hmem
  exact (le_foldl_max _ 0).2 _ h1

theorem oneofFree_total : ∀ (fuel : Nat) (t : TypeRef) (m : Model) (fn sn : String)
    (o : GenerateOptions), oneofFreeRef t = true → refDepth t < fuel →
    (genValueF fuel m t fn sn o).isSome := by
  intro fuel
  induction fuel with
  | zero =>
    intro t m fn sn o _ hd
    omega
  | succ k ih =>
    intro t m fn sn o hfree hd
    obtain ⟨kind, nm, elem⟩ := t
    rw [genValueF_succ]
    split
    · simp
    · -- struct
      rw [oneofFreeRef.eq_def] at hfree
      simp at hfree
      simp only [hfree.1, Bool.false_eq_true, if_false]
      split <;> split <;> simp
    · -- enum
      split <;> simp
    · -- typedef
      split <;> simp
    · -- oneof
      rw [oneofFreeRef.eq_def] at hfree
      simp at hfree
    · -- slice
      cases elem with
      | none => simp
      | some e =>
        rw [oneofFreeRef.eq_def] at hfree
        simp at hfree
        rw [refDepth.eq_def] at hd
        simp at hd
        simp only [Option.isSome_map']
        exact ih e m fn sn o hfree (by omega)
    · -- pointer
      split
      · simp
      · rename_i e
        rw [oneofFreeRef.eq_def] at hfree
        simp at hfree
        rw [refDepth.eq_def] at hd
        simp at hd
        split
        · simp
        · split
          · simp
          · split
            · exact ih e m fn sn o hfree (by omega)
            · simp only [Option.isSome_map']
              exact ih e m fn sn o hfree (by omega)
    · -- external
      split <;> simp
    · -- default
      simp


theorem safeModel_field_free (m : Model) (hsafe : oneofSafeModel m = true)
    (tname impl : String) (st : Struct)
    (h1 : mapLookup m.oneOfs tname = some impl)
    (h2 : mapLookup m.structs impl = some st) :
    ∀ f ∈ st.fields, oneofFreeRef f.type = true := by
  intro f hf
  unfold mapLookup at h1
  rcases Option.map_eq_some'.mp h1 with ⟨p, hfind, hp⟩
  have hpmem : p ∈ m.oneOfs := List.mem_of_find?_eq_some hfind
  unfold oneofSafeModel at hsafe
  have hb := List.all_eq_true.mp hsafe p hpmem
  rw [hp, h2] at hb
  exact List.all_eq_true.mp hb f hf

theorem oneof_branch_isSome (k : Nat) (m : Model) (impl : String) (st : Struct)
    (o : GenerateOptions) (tname : String)
    (hsafe : oneofSafeModel m = true)
    (heq1 : mapLookup m.oneOfs tname = some impl)
    (heq2 : mapLookup m.structs impl = some st)
    (hk : modelFieldDepth m + 1 ≤ k) :
    (match optionMapList (fun fld : Field => (genValueF k m fld.type fld.name impl o).map
        (fun v => fld.name ++ ": " ++ v)) st.fields with
     | none => none
     | some structFields =>
       if structFields.length > 0 then
         some ("&" ++ prefixType o impl ++ "\x7b\n\t\t\t" ++
           String.intercalate ",\n\t\t\t" structFields ++ ",\n\t\t\x7d")
       else some ("&" ++ prefixType o impl ++ "\x7b\x7d")).isSome := by
  have hfields : ∀ f ∈ st.fields, oneofFreeRef f.type = true :=
    safeModel_field_free m hsafe tname impl st heq1 heq2
  have hsome : (optionMapList (fun fld => (genValueF k m fld.type fld.name impl o).map
      (fun v => fld.name ++ ": " ++ v)) st.fields).isSome := by
    apply optionMapList_isSome
    intro f hf
    rw [Option.isSome_map']
    apply oneofFree_total k f.type m f.name impl o (hfields f hf)
    have := field_depth_le m impl st f heq2 hf
    omega
  rcases Option.isSome_iff_exists.mp hsome with ⟨sf, hsf⟩
  rw [hsf]
  split <;> [simp_all; skip]
  split <;> simp

theorem safe_total : ∀ (fuel : Nat) (m : Model) (t : TypeRef) (fn sn : String)
    (o : GenerateOptions), oneofSafeModel m = true →
    refDepth t + modelFieldDepth m + 2 ≤ fuel → (genValueF fuel m t fn sn o).isSome := by
  intro fuel
  induction fuel with
  | zero =>
    intro m t fn sn o _ h
    omega
  | succ k ih =>
    intro m t fn sn o hsafe hfuel
    obtain ⟨kind, nm, elem⟩ := t
    rw [genValueF_succ]
    split
    · simp
    · -- struct
      split
      · split
        · rename_i impl heq1
          split
          · split
            · rename_i st heq2
              exact oneof_branch_isSome k m impl st o nm hsafe heq1 heq2 (by omega)
            · simp
          · simp
        · simp
      · split <;> split <;> simp
    · split <;> simp
    · split <;> simp
    · -- oneof
      split
      · rename_i impl heq1
        split
        · split
          · rename_i st heq2
            exact oneof_branch_isSome k m impl st o nm hsafe heq1 heq2 (by omega)
          · simp
        · simp
      · simp
    · -- slice
      split
      · simp
      · rename_i e
        simp only [Option.isSome_map']
        apply ih m e fn sn o hsafe
        rw [refDepth.eq_def] at hfuel
        simp at hfuel
        omega
    · -- pointer
      split
      · simp
      · rename_i e
        have hd : refDepth e + modelFieldDepth m + 2 ≤ k := by
          rw [refDepth.eq_def] at hfuel
          simp at hfuel
          omega
        split
        · simp
        · split
          · simp
          · split
            · exact ih m e fn sn o hsafe hd
            · simp only [Option.isSome_map']
              exact ih m e fn sn o hsafe hd
    · split <;> simp
    · simp


/-- Claim C1 (amended): every value `genValue` produces is a nonempty string
(every kind, including unknown, has a defined fallback, `"nil"` where nothing
better exists), and on models whose resolved oneof members' fields are free of
further sum-type references the recursion terminates — a finite depth bound
suffices and yields a nonempty result for every reference.  The unamended
termination claim fails: see the divergence counterexample. -/
theorem claim1_synthesis_totality :
    (∀ (fuel : Nat) (m : Model) (t : TypeRef) (fn sn : String) (o : GenerateOptions)
      (v : String), genValueF fuel m t fn sn o = some v → v ≠ "") ∧
    (∀ (m : Model), oneofSafeModel m = true →
      ∀ (t : TypeRef) (fn sn : String) (o : GenerateOptions) (fuel : Nat),
      refDepth t + modelFieldDepth m + 2 ≤ fuel →
      ∃ v, genValueF fuel m t fn sn o = some v ∧ v ≠ "") := by
  constructor
  · exact genValueF_ne_empty
  · intro m hm t fn sn o fuel hf
    rcases Option.isSome_iff_exists.mp (safe_total fuel m t fn sn o hm hf) with ⟨v, hv⟩
    exact ⟨v, hv, genValueF_ne_empty fuel m t fn sn o v hv⟩

/-- Claim C1 witness: on the repository's oneof test model the bound is met at
fuel 2 and synthesis of the sum-type reference returns a nonempty string. -/
theorem claim1_witness :
    ∃ v, genValueF 2 oneofModelW (.mk "oneof" "isUserReference_Id" none) "Id"
      "UserReference" defaultOpts = some v ∧ v ≠ "" :=
  claim1_synthesis_totality.2 oneofModelW (by decide)
    (.mk "oneof" "isUserReference_Id" none) "Id" "UserReference" defaultOpts 2 (by decide)

/-- Claim C1 counterexample: `ParseSource` accepts a oneof interface `isA_B`
whose canonical member struct `A_X` has a field of that same interface type,
and on the extracted model `genValue` never returns at any recursion depth —
the Go function recurses forever, refuting "never fails / the recursion
terminates" as stated. -/
theorem claim1_counterexample :
    parseSourceSpecs cyclicSpecs = cyclicModel ∧
    genValueDiverges cyclicModel (.mk "struct" "isA_B" none) "F" "A_X" defaultOpts := by
  constructor
  · rfl
  · have key : ∀ j, genValueF j cyclicModel (.mk "struct" "isA_B" none) "F" "A_X"
        defaultOpts = none →
        genValueF (j + 1) cyclicModel (.mk "struct" "isA_B" none) "F" "A_X"
          defaultOpts = none := by
      intro j hj
      rw [genValueF_succ]
      split
      all_goals simp_all [optionMapList,
        show isOneOfName "isA_B" = true from rfl,
        show mapLookup cyclicModel.oneOfs "isA_B" = some "A_X" from rfl,
        show mapLookup cyclicModel.structs "A_X" =
          some (⟨"A_X", [⟨"F", TypeRef.mk "struct" "isA_B" none⟩]⟩ : Struct) from rfl]
    intro fuel
    induction fuel with
    | zero => rfl
    | succ j ihj => exact key j ihj


theorem lookup_overwrite_ne {α : Type} (k n : String) (v : α) (hne : k ≠ n) :
    ∀ (l : List (String × α)),
    mapLookup (l.map (fun p => if p.1 == k then (k, v) else p)) n = mapLookup l n := by
  intro l
  induction l with
  | nil => rfl
  | cons p t ih =>
    simp only [List.map_cons]
    unfold mapLookup at ih ⊢
    simp only [List.find?]
    by_cases hp : (p.1 == k) = true
    · have h1 : ((k : String) == n) = false := by simp [hne]
      have h2 : (p.1 == n) = false := by
        rw [eq_of_beq hp]
        simp [hne]
      simp only [hp, if_true, h1, h2]
      exact ih
    · have hp2 : (p.1 == k) = false := by simpa using hp
      simp only [hp2, Bool.false_eq_true, if_false]
      by_cases hn : (p.1 == n) = true
      · simp [hn]
      · have hn2 : (p.1 == n) = false := by simpa using hn
        simp only [hn2]
        exact ih

theorem lookup_append_single_ne {α : Type} (l : List (String × α)) (k n : String) (v : α)
    (hne : k ≠ n) : mapLookup (l ++ [(k, v)]) n = mapLookup l n := by
  unfold mapLookup
  rw [List.find?_append]
  cases hf : l.find? (fun p => p.1 == n) with
  | some p => simp
  | none =>
    have : ((k : String) == n) = false := by simp [hne]
    simp [List.find?, this]

theorem mapInsert_lookup_ne {α : Type} (l : List (String × α)) (k n : String) (v : α)
    (hne : k ≠ n) : mapLookup (mapInsert l k v) n = mapLookup l n := by
  unfold mapInsert
  split
  · exact lookup_overwrite_ne k n v hne l
  · exact lookup_append_single_ne l k n v hne

theorem pass1_structs (specs : List TypeSpec) :
    ∀ (m : Model), (specs.foldl pass1Step m).structs = m.structs := by
  induction specs with
  | nil => intro m; rfl
  | cons ts t ih =>
    intro m
    rw [List.foldl_cons, ih]
    unfold pass1Step
    cases ts.body <;> simp
    split <;> rfl

theorem assignOneOfs_structs (m : Model) (nm : String) :
    ({ m with oneOfs := assignOneOfs m.oneOfs nm } : Model).structs = m.structs := rfl

theorem pass2_preserves_no_struct (n : String) :
    ∀ (specs : List TypeSpec) (m : Model),
    (∀ ts ∈ specs, ts.name = n → eligibleFieldsOf ts.body = []) →
    mapLookup m.structs n = none →
    mapLookup ((specs.foldl pass2Step m).structs) n = none := by
  intro specs
  induction specs with
  | nil => intro m _ h; exact h
  | cons ts t ih =>
    intro m hall hm
    rw [List.foldl_cons]
    apply ih _ (fun x hx hxn => hall x (List.mem_cons_of_mem _ hx) hxn)
    unfold pass2Step
    split
    · exact hm
    · cases hb : ts.body with
      | structType rawFields =>
        dsimp only
        by_cases hn : ts.name = n
        · have he := hall ts (List.mem_cons_self _ _) hn
          rw [hb] at he
          simp only [eligibleFieldsOf] at he
          rw [he]
          simpa using hm
        · split
          · exact (mapInsert_lookup_ne _ _ _ _ hn).trans hm
          · exact hm
      | identType u =>
        dsimp only
        split
        · exact hm
        · exact hm
      | interfaceType => exact hm
      | otherType => exact hm

/-- Claim C10: a struct declaration whose fields are all filtered out
(unnamed/embedded, protobuf-internal, or unexported) is never added to the
model's struct map, so no key for it exists and no fixture constructor is
ever generated for it. -/
theorem claim10_fieldless_structs_omitted (specs : List TypeSpec) (n : String)
    (h : ∀ ts ∈ specs, ts.name = n → eligibleFieldsOf ts.body = []) :
    mapLookup (parseSourceSpecs specs).structs n = none ∧
    ∀ p ∈ (parseSourceSpecs specs).structs, p.1 ≠ n := by
  have h1 : mapLookup (parseSourceSpecs specs).structs n = none := by
    unfold parseSourceSpecs
    apply pass2_preserves_no_struct n specs _ h
    rw [pass1_structs]
    rfl
  refine ⟨h1, ?_⟩
  intro p hp hpn
  unfold mapLookup at h1
  rw [Option.map_eq_none'] at h1
  have := List.find?_eq_none.mp h1 p hp
  rw [hpn] at this
  simp at this

/-- Claim C10 witness: a struct whose three declared fields are a
protobuf-internal name, an unexported name, and an embedded field is omitted
from the model. -/
theorem claim10_witness :
    mapLookup (parseSourceSpecs [⟨"Empty", .structType [⟨["state"], .ident "string"⟩,
      ⟨["hidden"], .ident "int"⟩, ⟨[], .ident "int"⟩]⟩]).structs "Empty" = none :=
  (claim10_fieldless_structs_omitted _ "Empty"
    (by
      intro ts hts hn
      rw [List.mem_singleton] at hts
      subst hts
      rfl)).1

end Generator
